import Mathlib

/-!
Shallow embedding of `kvmd/web/js/mouse.js` (the `Mouse` component):
coordinate normalization (`__translate`), the throttled move flush
(`__sendMove`), and the button / touch / wheel handlers.

Numbers flowing through `__translate` are modelled by `JSVal`, a JavaScript
number abstracted to an exact rational together with the non-finite values
`Infinity`, `-Infinity` and `NaN`, so that the unguarded division by zero in
`__translate` keeps its JavaScript semantics.  `Math.round` on a finite value
is `⌊q + 1/2⌋` (round half toward positive infinity), exactly as in JS.

The mutable closure state of `Mouse` (`__ws`, `__current_pos`, `__sent_pos`,
`__stream_hovered`) becomes the structure `MouseState`; each DOM handler
becomes a function from its event data and the state to the new state plus
the list of messages written to the WebSocket during the call.  The viewport
extents (`clientWidth` / `clientHeight` of the stream image, read at flush
time) are passed to `sendMove` as parameters since they are read dynamically.
-/

namespace KvmdMouse

/-- JavaScript `Math.round` on an exact (finite) value: round half toward
positive infinity, `Math.round q = ⌊q + 1/2⌋`. -/
def jround (q : ℚ) : ℤ := ⌊q + 1/2⌋

/-- A JavaScript number, abstracted to exact rational arithmetic plus the
non-finite values: `nan`, `inf true` (+Infinity), `inf false` (-Infinity). -/
inductive JSVal where
  | nan : JSVal
  | inf : Bool → JSVal
  | num : ℚ → JSVal
deriving DecidableEq

namespace JSVal

/-- JS subtraction. -/
def sub : JSVal → JSVal → JSVal
  | nan, _ => nan
  | _, nan => nan
  | inf s, num _ => inf s
  | num _, inf s => inf (!s)
  | inf s, inf t => if s = t then nan else inf s
  | num p, num q => num (p - q)

/-- JS division; finite / 0 gives a signed infinity (or `NaN` for 0/0). -/
def div : JSVal → JSVal → JSVal
  | nan, _ => nan
  | _, nan => nan
  | inf s, num q => if q < 0 then inf (!s) else inf s
  | num _, inf _ => num 0
  | inf _, inf _ => nan
  | num p, num q =>
      if q = 0 then (if 0 < p then inf true else if p < 0 then inf false else nan)
      else num (p / q)

/-- JS multiplication; infinity times zero is `NaN`. -/
def mul : JSVal → JSVal → JSVal
  | nan, _ => nan
  | _, nan => nan
  | inf s, num q => if q = 0 then nan else if 0 < q then inf s else inf (!s)
  | num p, inf s => if p = 0 then nan else if 0 < p then inf s else inf (!s)
  | inf s, inf t => inf (s == t)
  | num p, num q => num (p * q)

/-- JS addition; opposite infinities give `NaN`. -/
def add : JSVal → JSVal → JSVal
  | nan, _ => nan
  | _, nan => nan
  | inf s, num _ => inf s
  | num _, inf s => inf s
  | inf s, inf t => if s = t then inf s else nan
  | num p, num q => num (p + q)

/-- JS `Math.round`: rounds a finite value half toward +infinity, and is the
identity on `NaN` and the infinities. -/
def round : JSVal → JSVal
  | num q => num ((jround q : ℤ) : ℚ)
  | v => v

end JSVal

/-- `__translate(x, a, b, c, d) = Math.round((x - a) / (b - a) * (d - c) + c)`
(mouse.js lines 131-133), in JS number semantics. -/
def translate (x a b c d : JSVal) : JSVal :=
  JSVal.round (JSVal.add (JSVal.mul (JSVal.div (JSVal.sub x a) (JSVal.sub b a))
    (JSVal.sub d c)) c)

/-- The normalization used by the move path: `__translate(value, 0,
viewportExtent, -32768, 32767)`. -/
def normalize (value extent : JSVal) : JSVal :=
  translate value (JSVal.num 0) extent (JSVal.num (-32768)) (JSVal.num 32767)

/-- The formula stated by the spec for `normalize`, written from the spec's
words: `round((value - 0) / (viewportExtent - 0) * (32767 - (-32768)) +
(-32768))`.  Used only to compare against the implementation `normalize`. -/
def normalizeSpecFormula (value extent : ℚ) : ℤ :=
  jround ((value - 0) / (extent - 0) * (32767 - (-32768)) + (-32768))

/-- A pixel position; `__current_pos` / `__sent_pos` hold integers because
the handlers store `Math.round(clientX - rect.left)` etc. -/
@[ext]
structure Pos where
  x : ℤ
  y : ℤ
deriving DecidableEq

/-- A mouse button symbol, as written into the `button` field. -/
inductive Button where
  | left : Button
  | right : Button
deriving DecidableEq

/-- A message written to the WebSocket (the JSON payloads of mouse.js). -/
inductive Msg where
  | mouseMove : JSVal → JSVal → Msg
  | mouseButton : Button → Bool → Msg
  | mouseWheel : ℚ → ℚ → Msg
deriving DecidableEq

/-- The mutable closure state of `Mouse`: the socket reference (modelled by
its presence), `__current_pos`, `__sent_pos` and `__stream_hovered`. -/
structure MouseState where
  ws : Bool
  current_pos : Pos
  sent_pos : Pos
  stream_hovered : Bool
deriving DecidableEq

/-- The initial closure state: positions `(0,0)`, no socket, not hovered. -/
def initState : MouseState :=
  { ws := false, current_pos := ⟨0, 0⟩, sent_pos := ⟨0, 0⟩, stream_hovered := false }

/-- `setSocket(ws)`: stores the socket reference (its CSS side effect is
outside this model). -/
def setSocket (ws : Bool) (s : MouseState) : MouseState :=
  { s with ws := ws }

/-- The position data carried by a motion or touch event: `clientX`,
`clientY` and the target's bounding rectangle offsets. -/
structure MotionSample where
  clientX : ℚ
  clientY : ℚ
  rectLeft : ℚ
  rectTop : ℚ
deriving DecidableEq

/-- The pixel position a handler computes from an event:
`Math.round(clientX - rect.left)`, `Math.round(clientY - rect.top)`. -/
def samplePos (ev : MotionSample) : Pos :=
  ⟨jround (ev.clientX - ev.rectLeft), jround (ev.clientY - ev.rectTop)⟩

/-- `__moveHandler`: stores the event position into `__current_pos`; no
message is sent. -/
def moveHandler (ev : MotionSample) (s : MouseState) : MouseState :=
  { s with current_pos := samplePos ev }

/-- `__sendMove` (mouse.js lines 112-129), with the stream image's
`clientWidth` / `clientHeight` read at flush time passed as `w`, `h`.
Returns the new state and the messages sent during the call. -/
def sendMove (w h : ℤ) (s : MouseState) : MouseState × List Msg :=
  let pos := s.current_pos
  if pos.x ≠ s.sent_pos.x ∨ pos.y ≠ s.sent_pos.y then
    let to_x := translate (JSVal.num (pos.x : ℚ)) (JSVal.num 0) (JSVal.num (w : ℚ))
      (JSVal.num (-32768)) (JSVal.num 32767)
    let to_y := translate (JSVal.num (pos.y : ℚ)) (JSVal.num 0) (JSVal.num (h : ℚ))
      (JSVal.num (-32768)) (JSVal.num 32767)
    ({ s with sent_pos := pos }, if s.ws then [Msg.mouseMove to_x to_y] else [])
  else
    (s, [])

/-- The `switch (event.button)` mapping in `__buttonHandler`:
`0 → "left"`, `2 → "right"`, anything else leaves `button` null. -/
def buttonName : ℕ → Option Button
  | 0 => some Button.left
  | 2 => some Button.right
  | _ => none

/-- `__buttonHandler(event, state)` (mouse.js lines 83-102).  Returns the new
state, the messages sent, and whether `event.preventDefault()` was called. -/
def buttonHandler (btn : ℕ) (state : Bool) (w h : ℤ) (s : MouseState) :
    MouseState × List Msg × Bool :=
  match buttonName btn with
  | none => (s, [], false)
  | some b =>
      let r := sendMove w h s
      (r.1, r.2 ++ (if r.1.ws then [Msg.mouseButton b state] else []), true)

/-- `__touchHandler(event, state)` (mouse.js lines 61-81): on touch-start it
stores the first touch point into `__current_pos` and calls `__sendMove`;
then (for start and end alike) it sends a left-button message if the socket
is present. -/
def touchHandler (ev : MotionSample) (state : Bool) (w h : ℤ) (s : MouseState) :
    MouseState × List Msg :=
  let r :=
    if state then
      sendMove w h { s with current_pos := samplePos ev }
    else
      (s, [])
  (r.1, r.2 ++ (if r.1.ws then [Msg.mouseButton Button.left state] else []))

/-- `__wheelHandler` (mouse.js lines 135-148): sends the raw wheel deltas
immediately when the socket is present; no state change. -/
def wheelHandler (deltaX deltaY : ℚ) (s : MouseState) : MouseState × List Msg :=
  (s, if s.ws then [Msg.mouseWheel deltaX deltaY] else [])

/-- `__hoverStream` / `__leaveStream`: only the hover flag changes. -/
def hoverStream (hovered : Bool) (s : MouseState) : MouseState :=
  { s with stream_hovered := hovered }

/-! ### Basic facts about the embedding -/

/-- On finite inputs with a nonzero extent, `normalize` stays finite and
computes `⌊value/extent * 65535 - 32768 + 1/2⌋`. -/
lemma normalize_num (v e : ℚ) (he : e ≠ 0) :
    normalize (JSVal.num v) (JSVal.num e)
      = JSVal.num ((jround (v / e * 65535 - 32768) : ℤ) : ℚ) := by
  have h0 : ¬ (e - 0 = 0) := by simpa using he
  simp only [normalize, translate, JSVal.sub, JSVal.div, JSVal.mul, JSVal.add,
    JSVal.round, if_neg h0]
  norm_num [jround]
  ring_nf

/-- `sendMove` never changes the socket reference. -/
lemma sendMove_ws (w h : ℤ) (s : MouseState) : (sendMove w h s).1.ws = s.ws := by
  unfold sendMove
  dsimp only
  split <;> rfl

/-- `sendMove` never changes the current position. -/
lemma sendMove_current (w h : ℤ) (s : MouseState) :
    (sendMove w h s).1.current_pos = s.current_pos := by
  unfold sendMove
  dsimp only
  split <;> rfl

/-- With the socket absent, `sendMove` sends nothing. -/
lemma sendMove_noWs (w h : ℤ) (s : MouseState) (hws : s.ws = false) :
    (sendMove w h s).2 = [] := by
  unfold sendMove
  dsimp only
  split <;> simp [hws]

/-- Two positions differ exactly when one of their coordinates differs
(the condition tested by `__sendMove`). -/
lemma Pos.ne_iff_coords (p q : Pos) : p ≠ q ↔ p.x ≠ q.x ∨ p.y ≠ q.y := by
  constructor
  · intro hne
    by_contra hc
    push_neg at hc
    exact hne (by cases p; cases q; simp_all)
  · rintro (hx | hy) rfl
    · exact hx rfl
    · exact hy rfl

/-- After any flush, the sent position equals the current position. -/
lemma sendMove_sent_eq (w h : ℤ) (s : MouseState) :
    (sendMove w h s).1.sent_pos = s.current_pos := by
  unfold sendMove
  dsimp only
  split
  · rfl
  · rename_i hcond
    push_neg at hcond
    exact (Pos.ext hcond.1 hcond.2).symm

/-- A flush with the current position equal to the sent position does
nothing. -/
lemma sendMove_of_eq (w h : ℤ) (s : MouseState)
    (hsame : s.current_pos = s.sent_pos) : sendMove w h s = (s, []) := by
  unfold sendMove
  dsimp only
  split
  · rename_i hcond
    rw [hsame] at hcond
    simp at hcond
  · rfl

/-- A flush with a pending change records the current position as sent and
emits the translated move message when the socket is present. -/
lemma sendMove_of_ne (w h : ℤ) (s : MouseState)
    (hne : s.current_pos ≠ s.sent_pos) :
    sendMove w h s =
      ({ s with sent_pos := s.current_pos },
       if s.ws then
         [Msg.mouseMove
           (normalize (JSVal.num (s.current_pos.x : ℚ)) (JSVal.num (w : ℚ)))
           (normalize (JSVal.num (s.current_pos.y : ℚ)) (JSVal.num (h : ℚ)))]
       else []) := by
  rw [Pos.ne_iff_coords] at hne
  unfold sendMove
  dsimp only
  rw [if_pos hne]
  rfl

/-- Any single flush emits at most one message. -/
lemma sendMove_length_le_one (w h : ℤ) (s : MouseState) :
    (sendMove w h s).2.length ≤ 1 := by
  unfold sendMove
  dsimp only
  split
  · split <;> simp
  · simp

/-- A second flush directly after a flush emits nothing, whatever the
extents: the first flush left `sent_pos = current_pos`. -/
lemma sendMove_twice (w h w2 h2 : ℤ) (s : MouseState) :
    (sendMove w2 h2 (sendMove w h s).1).2 = [] := by
  have hsame : (sendMove w h s).1.current_pos = (sendMove w h s).1.sent_pos := by
    rw [sendMove_current, sendMove_sent_eq]
  rw [sendMove_of_eq w2 h2 _ hsame]

/-- Folding raw motion samples only rewrites `current_pos`; the socket, the
sent position and the hover flag are untouched. -/
lemma foldl_moveHandler (s : MouseState) (es : List MotionSample) :
    List.foldl (fun t e => moveHandler e t) s es
      = { s with current_pos := List.foldl (fun _ e => samplePos e) s.current_pos es } := by
  induction es generalizing s with
  | nil => rfl
  | cons e es ih =>
      simp only [List.foldl_cons]
      rw [ih]
      rfl

/-- Folding a constant-update function over a nonempty list keeps only the
last element's value. -/
lemma foldl_const_getLastD (es : List MotionSample) (p : Pos) (hne : es ≠ []) :
    List.foldl (fun _ e => samplePos e) p es = samplePos (es.getLastD ⟨0, 0, 0, 0⟩) := by
  induction es generalizing p with
  | nil => exact absurd rfl hne
  | cons e es ih =>
      cases es with
      | nil => rfl
      | cons e2 es2 =>
          have h1 : List.foldl (fun _ e => samplePos e) p (e :: e2 :: es2)
              = List.foldl (fun _ e => samplePos e) (samplePos e) (e2 :: es2) := rfl
          rw [h1, ih (samplePos e) (by simp)]
          simp [List.getLastD_cons]

/-- `jround` keeps a value that lies between two integers `-32768` and
`32767` inside that integer range. -/
lemma jround_range (q : ℚ) (h1 : -32768 ≤ q) (h2 : q ≤ 32767) :
    -32768 ≤ jround q ∧ jround q ≤ 32767 := by
  unfold jround
  constructor
  · apply Int.le_floor.mpr
    push_cast
    linarith
  · have hlt : jround q < 32768 := by
      apply Int.floor_lt.mpr
      push_cast
      linarith
    unfold jround at hlt
    omega

/-- For a position inside the viewport, the argument of the final rounding
in `normalize` lies in `[-32768, 32767]`. -/
lemma normalize_arg_bounds (p w : ℤ) (h0 : 0 ≤ p) (hpw : p ≤ w) (hw : 0 < w) :
    -32768 ≤ ((p : ℚ) / (w : ℚ) * 65535 - 32768)
      ∧ ((p : ℚ) / (w : ℚ) * 65535 - 32768) ≤ 32767 := by
  have hw' : (0 : ℚ) < (w : ℚ) := by exact_mod_cast hw
  have h1 : (0 : ℚ) ≤ (p : ℚ) / (w : ℚ) :=
    div_nonneg (by exact_mod_cast h0) hw'.le
  have h2 : (p : ℚ) / (w : ℚ) ≤ 1 := by
    rw [div_le_one hw']
    exact_mod_cast hpw
  constructor <;> nlinarith

/-- For a pixel coordinate inside a positive viewport extent, `normalize`
returns a finite integer in the 16-bit signed range. -/
lemma normalize_in_range (p w : ℤ) (h0 : 0 ≤ p) (hpw : p ≤ w) (hw : 0 < w) :
    ∃ n : ℤ, normalize (JSVal.num (p : ℚ)) (JSVal.num (w : ℚ)) = JSVal.num (n : ℚ)
      ∧ -32768 ≤ n ∧ n ≤ 32767 := by
  have hw0 : (w : ℚ) ≠ 0 := by
    exact_mod_cast hw.ne'
  refine ⟨jround ((p : ℚ) / (w : ℚ) * 65535 - 32768), normalize_num _ _ hw0, ?_⟩
  obtain ⟨hb1, hb2⟩ := normalize_arg_bounds p w h0 hpw hw
  exact jround_range _ hb1 hb2

/-- A flush with the socket present emits exactly the conditional move
message: the translated current position when it differs from the sent
position, and nothing otherwise. -/
lemma sendMove_msgs_char (w h : ℤ) (s : MouseState) (hws : s.ws = true) :
    (sendMove w h s).2
      = (if s.current_pos ≠ s.sent_pos then
          [Msg.mouseMove
            (normalize (JSVal.num (s.current_pos.x : ℚ)) (JSVal.num (w : ℚ)))
            (normalize (JSVal.num (s.current_pos.y : ℚ)) (JSVal.num (h : ℚ)))]
         else []) := by
  by_cases hpend : s.current_pos = s.sent_pos
  · rw [sendMove_of_eq w h s hpend, if_neg (not_not_intro hpend)]
  · rw [sendMove_of_ne w h s hpend, if_pos hpend]
    dsimp only
    rw [hws]
    rfl

/-! ### The claims -/

/-- C1: for every finite value and every nonzero viewport extent, the
implementation's `normalize` computes exactly the spec's formula
`round((value - 0) / (viewportExtent - 0) * (32767 - (-32768)) + (-32768))`.
The formula's division constrains the extent to be nonzero; the zero extent
is the subject of C3. -/
theorem C1_normalize_matches_spec_formula (v e : ℚ) (he : e ≠ 0) :
    normalize (JSVal.num v) (JSVal.num e)
      = JSVal.num ((normalizeSpecFormula v e : ℤ) : ℚ) := by
  rw [normalize_num v e he]
  unfold normalizeSpecFormula jround
  norm_num
  ring_nf

/-- Witness for C1 at value 400 and extent 800. -/
theorem C1_normalize_matches_spec_formula_witness :
    (800 : ℚ) ≠ 0 ∧ normalize (JSVal.num 400) (JSVal.num 800)
      = JSVal.num ((normalizeSpecFormula 400 800 : ℤ) : ℚ) :=
  ⟨by norm_num, C1_normalize_matches_spec_formula 400 800 (by norm_num)⟩

/-- C3: the code does NOT guard against `viewportExtent == 0`.  `normalize`
divides by zero with JavaScript semantics: `normalize(400, 0)` yields
`Infinity`, not a finite sentinel, and a flush against zero extents still
emits the move message (with non-finite coordinates) instead of skipping
the send. -/
theorem C3_division_by_zero_unguarded :
    normalize (JSVal.num 400) (JSVal.num 0) = JSVal.inf true
    ∧ (sendMove 0 0 ⟨true, ⟨400, 300⟩, ⟨0, 0⟩, false⟩).2
        = [Msg.mouseMove (JSVal.inf true) (JSVal.inf true)] := by
  constructor
  · norm_num [normalize, translate, JSVal.sub, JSVal.div, JSVal.mul, JSVal.add,
      JSVal.round]
  · norm_num [sendMove, translate, JSVal.sub, JSVal.div, JSVal.mul, JSVal.add,
      JSVal.round]

/-- C7: a native button code other than 0 and 2 produces no message, no
state change and no suppression of the default action, while codes 0 and 2
map to the left and right buttons. -/
theorem C7_unrecognized_button_ignored (btn : ℕ) (bstate : Bool) (w h : ℤ)
    (s : MouseState) (h0 : btn ≠ 0) (h2 : btn ≠ 2) :
    buttonHandler btn bstate w h s = (s, [], false)
    ∧ buttonName 0 = some Button.left
    ∧ buttonName 2 = some Button.right := by
  refine ⟨?_, rfl, rfl⟩
  have hname : buttonName btn = none := by
    rcases btn with _ | _ | _ | n
    · exact absurd rfl h0
    · rfl
    · exact absurd rfl h2
    · rfl
  unfold buttonHandler
  rw [hname]

/-- Witness for C7: middle button (native code 1) is ignored. -/
theorem C7_unrecognized_button_ignored_witness :
    buttonHandler 1 true 800 600 initState = (initState, [], false)
    ∧ buttonName 0 = some Button.left
    ∧ buttonName 2 = some Button.right :=
  C7_unrecognized_button_ignored 1 true 800 600 initState (by norm_num) (by norm_num)

/-- C8: with the socket reference absent, every send path (move flush,
button, touch, wheel) emits no message. -/
theorem C8_absent_channel_silent (s : MouseState) (w h : ℤ) (ev : MotionSample)
    (btn : ℕ) (bstate tstate : Bool) (dx dy : ℚ) (hws : s.ws = false) :
    (sendMove w h s).2 = []
    ∧ (buttonHandler btn bstate w h s).2.1 = []
    ∧ (touchHandler ev tstate w h s).2 = []
    ∧ (wheelHandler dx dy s).2 = [] := by
  refine ⟨sendMove_noWs w h s hws, ?_, ?_, by simp [wheelHandler, hws]⟩
  · unfold buttonHandler
    cases hname : buttonName btn with
    | none => rfl
    | some b =>
        dsimp only
        rw [sendMove_noWs w h s hws, sendMove_ws w h s, hws]
        rfl
  · unfold touchHandler
    cases tstate with
    | false => simp [hws]
    | true =>
        dsimp only
        rw [if_pos rfl]
        rw [sendMove_noWs w h { s with current_pos := samplePos ev } hws,
          sendMove_ws w h { s with current_pos := samplePos ev }]
        simp [hws]

/-- Witness for C8 with the socket absent in the initial state. -/
theorem C8_absent_channel_silent_witness :
    (sendMove 800 600 initState).2 = []
    ∧ (buttonHandler 0 true 800 600 initState).2.1 = []
    ∧ (touchHandler ⟨3, 4, 0, 0⟩ true 800 600 initState).2 = []
    ∧ (wheelHandler 1 (-2) initState).2 = [] :=
  C8_absent_channel_silent initState 800 600 ⟨3, 4, 0, 0⟩ 0 true true 1 (-2) rfl

/-- C10: with the socket absent and a pending position change, a flush
sends nothing yet still records the current position as sent; once the
socket is set, a further flush (position unchanged) sends nothing — the
consumed change is never retransmitted. -/
theorem C10_offline_flush_consumes_pending (s : MouseState) (w h w2 h2 : ℤ)
    (hws : s.ws = false) (_hpend : s.current_pos ≠ s.sent_pos) :
    (sendMove w h s).2 = []
    ∧ (sendMove w h s).1.sent_pos = s.current_pos
    ∧ (sendMove w2 h2 (setSocket true (sendMove w h s).1)).2 = [] := by
  refine ⟨sendMove_noWs w h s hws, sendMove_sent_eq w h s, ?_⟩
  have hsame : (setSocket true (sendMove w h s).1).current_pos
      = (setSocket true (sendMove w h s).1).sent_pos := by
    show (sendMove w h s).1.current_pos = (sendMove w h s).1.sent_pos
    rw [sendMove_current, sendMove_sent_eq]
  rw [sendMove_of_eq _ _ _ hsame]

/-- Witness for C10: pending change (10,20) with the socket absent. -/
theorem C10_offline_flush_consumes_pending_witness :
    (sendMove 800 600 ⟨false, ⟨10, 20⟩, ⟨0, 0⟩, false⟩).2 = []
    ∧ (sendMove 800 600 ⟨false, ⟨10, 20⟩, ⟨0, 0⟩, false⟩).1.sent_pos
        = (⟨false, ⟨10, 20⟩, ⟨0, 0⟩, false⟩ : MouseState).current_pos
    ∧ (sendMove 800 600 (setSocket true
        (sendMove 800 600 ⟨false, ⟨10, 20⟩, ⟨0, 0⟩, false⟩).1)).2 = [] :=
  C10_offline_flush_consumes_pending ⟨false, ⟨10, 20⟩, ⟨0, 0⟩, false⟩
    800 600 800 600 rfl (by decide)

/-- C2 counterexample: the code never clamps.  Flushing position (2,2)
against a 1×1 viewport emits the to-value 98302 on both axes, which is
outside the 16-bit signed range [-32768, 32767]. -/
theorem C2_unclamped_counterexample :
    (sendMove 1 1 ⟨true, ⟨2, 2⟩, ⟨0, 0⟩, false⟩).2
      = [Msg.mouseMove (JSVal.num 98302) (JSVal.num 98302)]
    ∧ (32767 : ℤ) < 98302 := by
  constructor
  · norm_num [sendMove, translate, JSVal.sub, JSVal.div, JSVal.mul, JSVal.add,
      JSVal.round, jround]
  · norm_num

/-- C2 (amended): whenever the current position lies inside the viewport
(each coordinate in `[0, extent]` with positive extents), every coordinate
of the `to` value of a flushed move message is a finite integer in
`[-32768, 32767]`. -/
theorem C2_move_to_value_in_int16_range (s : MouseState) (w h : ℤ) (tx ty : JSVal)
    (hw : 0 < w) (hh : 0 < h)
    (hx0 : 0 ≤ s.current_pos.x) (hxw : s.current_pos.x ≤ w)
    (hy0 : 0 ≤ s.current_pos.y) (hyh : s.current_pos.y ≤ h)
    (hmem : Msg.mouseMove tx ty ∈ (sendMove w h s).2) :
    ∃ nx ny : ℤ, tx = JSVal.num (nx : ℚ) ∧ ty = JSVal.num (ny : ℚ)
      ∧ -32768 ≤ nx ∧ nx ≤ 32767 ∧ -32768 ≤ ny ∧ ny ≤ 32767 := by
  by_cases hpend : s.current_pos = s.sent_pos
  · rw [sendMove_of_eq w h s hpend] at hmem
    simp at hmem
  · rw [sendMove_of_ne w h s hpend] at hmem
    obtain ⟨nx, hnx, hnx1, hnx2⟩ := normalize_in_range s.current_pos.x w hx0 hxw hw
    obtain ⟨ny, hny, hny1, hny2⟩ := normalize_in_range s.current_pos.y h hy0 hyh hh
    cases hws : s.ws with
    | false =>
        rw [hws] at hmem
        simp at hmem
    | true =>
        rw [hws] at hmem
        simp only [if_true, List.mem_singleton, if_pos] at hmem
        rw [Msg.mouseMove.injEq] at hmem
        exact ⟨nx, ny, by rw [hmem.1, hnx], by rw [hmem.2, hny],
          hnx1, hnx2, hny1, hny2⟩

/-- Witness for C2 (amended): position (1,1) in a 2×2 viewport flushes to
the in-range value 0 on both axes. -/
theorem C2_move_to_value_in_int16_range_witness :
    ∃ nx ny : ℤ, JSVal.num 0 = JSVal.num (nx : ℚ) ∧ JSVal.num 0 = JSVal.num (ny : ℚ)
      ∧ -32768 ≤ nx ∧ nx ≤ 32767 ∧ -32768 ≤ ny ∧ ny ≤ 32767 :=
  C2_move_to_value_in_int16_range ⟨true, ⟨1, 1⟩, ⟨0, 0⟩, false⟩ 2 2
    (JSVal.num 0) (JSVal.num 0)
    (by norm_num) (by norm_num) (by norm_num) (by norm_num) (by norm_num) (by norm_num)
    (by norm_num [sendMove, translate, JSVal.sub, JSVal.div, JSVal.mul, JSVal.add,
      JSVal.round, jround])

/-- C4 counterexample: two raw motion updates within one tick period that
end back at the already-sent position produce ZERO move sends at the next
flush, not exactly one (socket present throughout). -/
theorem C4_burst_back_to_sent_counterexample :
    (sendMove 800 600 (List.foldl (fun t e => moveHandler e t)
        ⟨true, ⟨0, 0⟩, ⟨0, 0⟩, false⟩
        [⟨1, 1, 0, 0⟩, ⟨0, 0, 0, 0⟩])).2 = []
    ∧ (List.foldl (fun t e => moveHandler e t)
        (⟨true, ⟨0, 0⟩, ⟨0, 0⟩, false⟩ : MouseState)
        [⟨1, 1, 0, 0⟩, ⟨0, 0, 0, 0⟩]).ws = true := by
  constructor
  · norm_num [sendMove, moveHandler, samplePos, jround]
  · rfl

/-- C4 (amended): with the socket present, a flush emits exactly one move
message (the translated current position) when the current position differs
from the sent position and nothing otherwise; a second flush directly after
a flush emits nothing; and after any nonempty burst of raw motion updates
the current position is the last sample's position and the flush emits at
most one move — exactly the translated last position when it differs from
the sent position, none otherwise. -/
theorem C4_flush_diff_throttling (s : MouseState) (w h : ℤ)
    (es : List MotionSample) (hws : s.ws = true) (hne : es ≠ []) :
    (sendMove w h s).2
      = (if s.current_pos ≠ s.sent_pos then
          [Msg.mouseMove
            (normalize (JSVal.num (s.current_pos.x : ℚ)) (JSVal.num (w : ℚ)))
            (normalize (JSVal.num (s.current_pos.y : ℚ)) (JSVal.num (h : ℚ)))]
         else [])
    ∧ (sendMove w h (sendMove w h s).1).2 = []
    ∧ (List.foldl (fun t e => moveHandler e t) s es).current_pos
        = samplePos (es.getLastD ⟨0, 0, 0, 0⟩)
    ∧ (sendMove w h (List.foldl (fun t e => moveHandler e t) s es)).2
      = (if samplePos (es.getLastD ⟨0, 0, 0, 0⟩) ≠ s.sent_pos then
          [Msg.mouseMove
            (normalize (JSVal.num ((samplePos (es.getLastD ⟨0, 0, 0, 0⟩)).x : ℚ))
              (JSVal.num (w : ℚ)))
            (normalize (JSVal.num ((samplePos (es.getLastD ⟨0, 0, 0, 0⟩)).y : ℚ))
              (JSVal.num (h : ℚ)))]
         else []) := by
  have hfold : List.foldl (fun t e => moveHandler e t) s es
      = { s with current_pos := samplePos (es.getLastD ⟨0, 0, 0, 0⟩) } := by
    rw [foldl_moveHandler, foldl_const_getLastD es s.current_pos hne]
  refine ⟨sendMove_msgs_char w h s hws, sendMove_twice w h w h s, by rw [hfold], ?_⟩
  rw [hfold]
  exact sendMove_msgs_char w h { s with current_pos := samplePos (es.getLastD ⟨0, 0, 0, 0⟩) } hws

/-- Witness for C4 (amended): one raw update to (5,7) then a tick flush. -/
theorem C4_flush_diff_throttling_witness :
    (sendMove 800 600 (⟨true, ⟨0, 0⟩, ⟨3, 3⟩, false⟩ : MouseState)).2
      = (if (⟨true, ⟨0, 0⟩, ⟨3, 3⟩, false⟩ : MouseState).current_pos
            ≠ (⟨true, ⟨0, 0⟩, ⟨3, 3⟩, false⟩ : MouseState).sent_pos then
          [Msg.mouseMove
            (normalize (JSVal.num (((⟨true, ⟨0, 0⟩, ⟨3, 3⟩, false⟩ : MouseState).current_pos.x : ℚ)))
              (JSVal.num ((800 : ℤ) : ℚ)))
            (normalize (JSVal.num (((⟨true, ⟨0, 0⟩, ⟨3, 3⟩, false⟩ : MouseState).current_pos.y : ℚ)))
              (JSVal.num ((600 : ℤ) : ℚ)))]
         else [])
    ∧ (sendMove 800 600 (sendMove 800 600 (⟨true, ⟨0, 0⟩, ⟨3, 3⟩, false⟩ : MouseState)).1).2 = []
    ∧ (List.foldl (fun t e => moveHandler e t)
          (⟨true, ⟨0, 0⟩, ⟨3, 3⟩, false⟩ : MouseState) [⟨5, 7, 0, 0⟩]).current_pos
        = samplePos (([⟨5, 7, 0, 0⟩] : List MotionSample).getLastD ⟨0, 0, 0, 0⟩)
    ∧ (sendMove 800 600 (List.foldl (fun t e => moveHandler e t)
          (⟨true, ⟨0, 0⟩, ⟨3, 3⟩, false⟩ : MouseState) [⟨5, 7, 0, 0⟩])).2
      = (if samplePos (([⟨5, 7, 0, 0⟩] : List MotionSample).getLastD ⟨0, 0, 0, 0⟩)
            ≠ (⟨true, ⟨0, 0⟩, ⟨3, 3⟩, false⟩ : MouseState).sent_pos then
          [Msg.mouseMove
            (normalize (JSVal.num ((samplePos (([⟨5, 7, 0, 0⟩] : List MotionSample).getLastD ⟨0, 0, 0, 0⟩)).x : ℚ))
              (JSVal.num ((800 : ℤ) : ℚ)))
            (normalize (JSVal.num ((samplePos (([⟨5, 7, 0, 0⟩] : List MotionSample).getLastD ⟨0, 0, 0, 0⟩)).y : ℚ))
              (JSVal.num ((600 : ℤ) : ℚ)))]
         else []) :=
  C4_flush_diff_throttling ⟨true, ⟨0, 0⟩, ⟨3, 3⟩, false⟩ 800 600 [⟨5, 7, 0, 0⟩]
    rfl (by simp)

/-- C5: on a recognized button press or release with a pending unflushed
position change and the socket present, the handler emits exactly two
messages: the move for the latest position first, then the button
message. -/
theorem C5_move_before_button (btn : ℕ) (bstate : Bool) (b : Button) (w h : ℤ)
    (s : MouseState) (hws : s.ws = true) (hb : buttonName btn = some b)
    (hpend : s.current_pos ≠ s.sent_pos) :
    (buttonHandler btn bstate w h s).2.1
      = [Msg.mouseMove
          (normalize (JSVal.num (s.current_pos.x : ℚ)) (JSVal.num (w : ℚ)))
          (normalize (JSVal.num (s.current_pos.y : ℚ)) (JSVal.num (h : ℚ))),
         Msg.mouseButton b bstate] := by
  unfold buttonHandler
  rw [hb]
  dsimp only
  rw [sendMove_of_ne w h s hpend]
  dsimp only
  rw [hws]
  rfl

/-- Witness for C5: left press at pending position (5,7). -/
theorem C5_move_before_button_witness :
    (buttonHandler 0 true 800 600 (⟨true, ⟨5, 7⟩, ⟨0, 0⟩, false⟩ : MouseState)).2.1
      = [Msg.mouseMove
          (normalize (JSVal.num ((5 : ℤ) : ℚ)) (JSVal.num ((800 : ℤ) : ℚ)))
          (normalize (JSVal.num ((7 : ℤ) : ℚ)) (JSVal.num ((600 : ℤ) : ℚ))),
         Msg.mouseButton Button.left true] :=
  C5_move_before_button 0 true Button.left 800 600 ⟨true, ⟨5, 7⟩, ⟨0, 0⟩, false⟩
    rfl rfl (by decide)

/-- C6 counterexample: a touch-start at the already-sent position (0,0)
emits ONLY the button-press message — no move message precedes it (socket
present). -/
theorem C6_touch_at_sent_position_counterexample :
    (touchHandler ⟨0, 0, 0, 0⟩ true 800 600 ⟨true, ⟨0, 0⟩, ⟨0, 0⟩, false⟩).2
      = [Msg.mouseButton Button.left true]
    ∧ (touchHandler ⟨0, 0, 0, 0⟩ true 800 600
        (⟨true, ⟨0, 0⟩, ⟨0, 0⟩, false⟩ : MouseState)).2.length = 1 := by
  have hmsgs : (touchHandler ⟨0, 0, 0, 0⟩ true 800 600
      (⟨true, ⟨0, 0⟩, ⟨0, 0⟩, false⟩ : MouseState)).2
      = [Msg.mouseButton Button.left true] := by
    norm_num [touchHandler, sendMove, samplePos, jround]
  exact ⟨hmsgs, by rw [hmsgs]; rfl⟩

/-- C6 (amended): with the socket present, touch-start stores the touch
point as the current position and emits the move (for that point) followed
by the left-button press exactly when the point differs from the sent
position, and only the press otherwise; touch-end emits only the
left-button release and changes no state. -/
theorem C6_touch_move_then_press (ev : MotionSample) (w h : ℤ) (s : MouseState)
    (hws : s.ws = true) :
    (touchHandler ev true w h s).1.current_pos = samplePos ev
    ∧ (touchHandler ev true w h s).2
      = (if samplePos ev ≠ s.sent_pos then
          [Msg.mouseMove
            (normalize (JSVal.num ((samplePos ev).x : ℚ)) (JSVal.num (w : ℚ)))
            (normalize (JSVal.num ((samplePos ev).y : ℚ)) (JSVal.num (h : ℚ))),
           Msg.mouseButton Button.left true]
         else [Msg.mouseButton Button.left true])
    ∧ (touchHandler ev false w h s).2 = [Msg.mouseButton Button.left false]
    ∧ (touchHandler ev false w h s).1 = s := by
  refine ⟨?_, ?_, ?_, rfl⟩
  · show (sendMove w h { s with current_pos := samplePos ev }).1.current_pos = samplePos ev
    rw [sendMove_current]
  · show (sendMove w h { s with current_pos := samplePos ev }).2
        ++ (if (sendMove w h { s with current_pos := samplePos ev }).1.ws = true
            then [Msg.mouseButton Button.left true] else []) = _
    rw [sendMove_ws w h { s with current_pos := samplePos ev },
      sendMove_msgs_char w h { s with current_pos := samplePos ev } hws]
    show (if samplePos ev ≠ s.sent_pos then _ else _) ++ (if s.ws = true then _ else _) = _
    rw [hws]
    by_cases hpend : samplePos ev ≠ s.sent_pos
    · rw [if_pos hpend, if_pos hpend]
      rfl
    · rw [if_neg hpend, if_neg hpend]
      rfl
  · show [] ++ (if s.ws = true then [Msg.mouseButton Button.left false] else []) = _
    rw [hws]
    rfl

/-- Witness for C6 (amended): touch-start at (3,4) from the initial
position with the socket present. -/
theorem C6_touch_move_then_press_witness :
    (touchHandler ⟨3, 4, 0, 0⟩ true 800 600
        (⟨true, ⟨0, 0⟩, ⟨0, 0⟩, false⟩ : MouseState)).1.current_pos
      = samplePos ⟨3, 4, 0, 0⟩
    ∧ (touchHandler ⟨3, 4, 0, 0⟩ true 800 600
        (⟨true, ⟨0, 0⟩, ⟨0, 0⟩, false⟩ : MouseState)).2
      = (if samplePos ⟨3, 4, 0, 0⟩ ≠ (⟨true, ⟨0, 0⟩, ⟨0, 0⟩, false⟩ : MouseState).sent_pos then
          [Msg.mouseMove
            (normalize (JSVal.num ((samplePos ⟨3, 4, 0, 0⟩).x : ℚ)) (JSVal.num ((800 : ℤ) : ℚ)))
            (normalize (JSVal.num ((samplePos ⟨3, 4, 0, 0⟩).y : ℚ)) (JSVal.num ((600 : ℤ) : ℚ))),
           Msg.mouseButton Button.left true]
         else [Msg.mouseButton Button.left true])
    ∧ (touchHandler ⟨3, 4, 0, 0⟩ false 800 600
        (⟨true, ⟨0, 0⟩, ⟨0, 0⟩, false⟩ : MouseState)).2
      = [Msg.mouseButton Button.left false]
    ∧ (touchHandler ⟨3, 4, 0, 0⟩ false 800 600
        (⟨true, ⟨0, 0⟩, ⟨0, 0⟩, false⟩ : MouseState)).1
      = (⟨true, ⟨0, 0⟩, ⟨0, 0⟩, false⟩ : MouseState) :=
  C6_touch_move_then_press ⟨3, 4, 0, 0⟩ 800 600 ⟨true, ⟨0, 0⟩, ⟨0, 0⟩, false⟩ rfl

/-- C9: for every positive extent, `normalize(0, extent) = -32768`;
`normalize(extent-1, extent)` is a finite integer at most 32767 and within
one pixel quantum (`65535/extent`, up to the half-unit of rounding) of
32767; and in an 800×600 viewport the midpoint pixel (400,300) normalizes
to -1 or 0 on each axis (here: 0). -/
theorem C9_normalize_endpoints (e : ℤ) (he : 0 < e) :
    normalize (JSVal.num 0) (JSVal.num (e : ℚ)) = JSVal.num (-32768)
    ∧ (∃ n : ℤ, normalize (JSVal.num ((e : ℚ) - 1)) (JSVal.num (e : ℚ))
          = JSVal.num (n : ℚ)
        ∧ n ≤ 32767 ∧ ((32767 - n : ℤ) : ℚ) < 65535 / (e : ℚ) + 1 / 2)
    ∧ (normalize (JSVal.num 400) (JSVal.num 800) = JSVal.num (-1)
        ∨ normalize (JSVal.num 400) (JSVal.num 800) = JSVal.num 0)
    ∧ (normalize (JSVal.num 300) (JSVal.num 600) = JSVal.num (-1)
        ∨ normalize (JSVal.num 300) (JSVal.num 600) = JSVal.num 0) := by
  have he' : (e : ℚ) ≠ 0 := by
    exact_mod_cast he.ne'
  have hepos : (0 : ℚ) < (e : ℚ) := by exact_mod_cast he
  refine ⟨?_, ⟨jround (((e : ℚ) - 1) / (e : ℚ) * 65535 - 32768),
      normalize_num _ _ he', ?_, ?_⟩, ?_, ?_⟩
  · rw [normalize_num 0 _ he', zero_div]
    norm_num [jround]
  · have hlt : ((e : ℚ) - 1) / (e : ℚ) < 1 := by
      rw [div_lt_one hepos]
      linarith
    have hfl : jround (((e : ℚ) - 1) / (e : ℚ) * 65535 - 32768) < 32768 := by
      unfold jround
      apply Int.floor_lt.mpr
      push_cast
      nlinarith
    omega
  · have hkey : ((e : ℚ) - 1) / (e : ℚ) * 65535 - 32768 + 1 / 2
        = 32767 + 1 / 2 - 65535 / (e : ℚ) := by
      field_simp
      ring
    have hfl := Int.lt_floor_add_one (((e : ℚ) - 1) / (e : ℚ) * 65535 - 32768 + 1 / 2)
    unfold jround
    rw [hkey] at hfl ⊢
    push_cast
    linarith
  · right
    norm_num [normalize, translate, JSVal.sub, JSVal.div, JSVal.mul, JSVal.add,
      JSVal.round, jround]
  · right
    norm_num [normalize, translate, JSVal.sub, JSVal.div, JSVal.mul, JSVal.add,
      JSVal.round, jround]

/-- Witness for C9 at extent 800. -/
theorem C9_normalize_endpoints_witness :
    normalize (JSVal.num 0) (JSVal.num ((800 : ℤ) : ℚ)) = JSVal.num (-32768)
    ∧ (∃ n : ℤ, normalize (JSVal.num (((800 : ℤ) : ℚ) - 1)) (JSVal.num ((800 : ℤ) : ℚ))
          = JSVal.num (n : ℚ)
        ∧ n ≤ 32767 ∧ ((32767 - n : ℤ) : ℚ) < 65535 / ((800 : ℤ) : ℚ) + 1 / 2)
    ∧ (normalize (JSVal.num 400) (JSVal.num 800) = JSVal.num (-1)
        ∨ normalize (JSVal.num 400) (JSVal.num 800) = JSVal.num 0)
    ∧ (normalize (JSVal.num 300) (JSVal.num 600) = JSVal.num (-1)
        ∨ normalize (JSVal.num 300) (JSVal.num 600) = JSVal.num 0) :=
  C9_normalize_endpoints 800 (by norm_num)

end KvmdMouse
